import Mathlib

/-!
Shallow embedding of the Lapsipaimen proximity-alert firmware (src/code.py)
and verification of its specified properties.

The embedding models the pure control logic: the RSSI/decision windows and
alert state machine (`update_state`), the guardian scan/handshake control
flow (`connect`), the ward receive path (`wait_for_connection`), the output
controller and the button controller from the main loop, and the haptic
effect computation (`vibrate`).  Hardware and radio are abstracted as
explicit inputs (advertisement lists, byte streams, success flags, clock
values).
-/

namespace Paimen

/-! ## Constants (src/code.py lines 27-61) -/

abbrev HAPTIC_EFFECT_NOTIFY : Int := 47
abbrev HAPTIC_EFFECT_NOTIFY_LEVEL : ℚ := 80
abbrev HAPTIC_EFFECT_ALERT : Int := 58
abbrev HAPTIC_EFFECT_ALERT_LEVEL : ℚ := 100
abbrev HAPTIC_EFFECT_ALERT_SECONDS : ℚ := 1

abbrev BTN_LONG_PRESS_SECONDS : ℚ := 8

abbrev BLE_RSSI_THRESHOLD : Int := -78
abbrev BLE_RSSI_SAMPLES : Nat := 8
abbrev ALERT_STATE_SAMPLES : Nat := 5
abbrev LED_STATUS_SECONDS : ℚ := 5

def BLE_MAC_CENTRAL : String := "f4:a7:b4:0b:c7:36"
def BLE_MAC_PERIPHERAL : String := "e2:6d:58:bd:ec:4b"

/-! ## State touched by `update_state` (globals, lines 84-92) -/

/-- The globals read and written by `update_state`: the RSSI sample window
`ble_rssis`, the raw-decision window `alert_states` and the committed
`alert_state`.  Initially `⟨[], [], false⟩` (lines 84, 88, 89). -/
structure PState where
  ble_rssis : List Int
  alert_states : List Bool
  alert_state : Bool
deriving DecidableEq

def initState : PState := ⟨[], [], false⟩

/-- Bounded FIFO push: `w.append(x); if len(w) > cap: w.pop(0)`
(lines 150-152 and 157-159).  `pop(0)` is `List.tail`. -/
def pushCap (cap : Nat) (w : List α) (x : α) : List α :=
  if cap < (w ++ [x]).length then (w ++ [x]).tail else w ++ [x]

/-- `sum(w) / len(w)` (line 154), in exact rational arithmetic. -/
def meanRssi (w : List Int) : ℚ := (w.sum : ℚ) / (w.length : ℚ)

/-- The raw decision recorded by one `update_state` call made on a state
whose signal window is `w`: the mean of the pushed window compared against
the threshold (lines 154-155). -/
def stepDecision (w : List Int) (r : Int) : Bool :=
  decide (meanRssi (pushCap BLE_RSSI_SAMPLES w r) < ((BLE_RSSI_THRESHOLD : Int) : ℚ))

/-- `update_state` (lines 140-176).  Pushes `rssi` into the signal window,
computes the mean and the raw decision `new_state`, pushes that into the
decision window, aborts when history is insufficient, and commits
`alert_state := new_state` (returning `True`) exactly when the decision
window is unanimous and differs from the committed state.  The Python
nested `if all(...) or not any(...): if alert_state != new_state:` with a
shared fall-through `return False` is flattened into one conjunction
guarding the commit branch. -/
def update_state (rssi : Int) (s : PState) : Bool × PState :=
  let ble_rssis := pushCap BLE_RSSI_SAMPLES s.ble_rssis rssi
  let ble_rssi_mean := meanRssi ble_rssis
  let new_state : Bool := decide (ble_rssi_mean < ((BLE_RSSI_THRESHOLD : Int) : ℚ))
  let alert_states := pushCap ALERT_STATE_SAMPLES s.alert_states new_state
  if ble_rssis.length < BLE_RSSI_SAMPLES ∨ alert_states.length + 1 < ALERT_STATE_SAMPLES then
    (false, ⟨ble_rssis, alert_states, s.alert_state⟩)
  else if (alert_states.all id = true ∨ alert_states.any id = false) ∧
      s.alert_state ≠ new_state then
    (true, ⟨ble_rssis, alert_states, new_state⟩)
  else
    (false, ⟨ble_rssis, alert_states, s.alert_state⟩)

/-- A sequence of `update_state` calls, oldest sample first. -/
def runUpdate (l : List Int) (s : PState) : PState :=
  l.foldl (fun s r => (update_state r s).2) s

/-- The sequence of raw decisions recorded by running `update_state` on the
samples `l` starting from a state whose signal window is `w`. -/
def rawDecisionsAux (w : List Int) : List Int → List Bool
  | [] => []
  | r :: rest => stepDecision w r :: rawDecisionsAux (pushCap BLE_RSSI_SAMPLES w r) rest

/-- Raw decisions recorded along a run from the initial (empty) state. -/
def rawDecisions (l : List Int) : List Bool := rawDecisionsAux [] l

/-! ## Basic lemmas about the windows -/

theorem update_state_eq (rssi : Int) (s : PState) :
    update_state rssi s =
      (if (pushCap BLE_RSSI_SAMPLES s.ble_rssis rssi).length < BLE_RSSI_SAMPLES ∨
          (pushCap ALERT_STATE_SAMPLES s.alert_states (stepDecision s.ble_rssis rssi)).length + 1
            < ALERT_STATE_SAMPLES then
        (false, ⟨pushCap BLE_RSSI_SAMPLES s.ble_rssis rssi,
                 pushCap ALERT_STATE_SAMPLES s.alert_states (stepDecision s.ble_rssis rssi),
                 s.alert_state⟩)
       else if ((pushCap ALERT_STATE_SAMPLES s.alert_states (stepDecision s.ble_rssis rssi)).all id
              = true ∨
            (pushCap ALERT_STATE_SAMPLES s.alert_states (stepDecision s.ble_rssis rssi)).any id
              = false) ∧
           s.alert_state ≠ stepDecision s.ble_rssis rssi then
        (true, ⟨pushCap BLE_RSSI_SAMPLES s.ble_rssis rssi,
                pushCap ALERT_STATE_SAMPLES s.alert_states (stepDecision s.ble_rssis rssi),
                stepDecision s.ble_rssis rssi⟩)
       else
        (false, ⟨pushCap BLE_RSSI_SAMPLES s.ble_rssis rssi,
                 pushCap ALERT_STATE_SAMPLES s.alert_states (stepDecision s.ble_rssis rssi),
                 s.alert_state⟩)) := rfl

theorem update_state_rssis (rssi : Int) (s : PState) :
    ((update_state rssi s).2).ble_rssis = pushCap BLE_RSSI_SAMPLES s.ble_rssis rssi := by
  rw [update_state_eq]
  split
  · rfl
  · split <;> rfl

theorem update_state_alerts (rssi : Int) (s : PState) :
    ((update_state rssi s).2).alert_states
      = pushCap ALERT_STATE_SAMPLES s.alert_states (stepDecision s.ble_rssis rssi) := by
  rw [update_state_eq]
  split
  · rfl
  · split <;> rfl

theorem pushCap_length {α : Type _} (c : Nat) (w : List α) (x : α) (h : w.length ≤ c) :
    (pushCap c w x).length = min (w.length + 1) c := by
  unfold pushCap
  split <;> rename_i hc
  · simp_all; omega
  · simp_all

theorem pushCap_length_le {α : Type _} (c : Nat) (w : List α) (x : α) (h : w.length ≤ c) :
    (pushCap c w x).length ≤ c := by
  rw [pushCap_length c w x h]; omega

theorem pushCap_subset {α : Type _} (c : Nat) (w : List α) (x : α) :
    ∀ y ∈ pushCap c w x, y ∈ w ++ [x] := by
  intro y hy
  unfold pushCap at hy
  split at hy
  · exact List.mem_of_mem_tail hy
  · exact hy

theorem pushCap_mem_last {α : Type _} (c : Nat) (hc : 1 ≤ c) (w : List α) (x : α) :
    x ∈ pushCap c w x := by
  unfold pushCap
  split <;> rename_i hcond
  · simp at hcond
    rcases w with _ | ⟨a, w'⟩
    · simp at hcond; omega
    · simp
  · simp

theorem pushCap_ne_nil {α : Type _} (c : Nat) (hc : 1 ≤ c) (w : List α) (x : α) :
    pushCap c w x ≠ [] := by
  intro h
  have := pushCap_mem_last c hc w x
  rw [h] at this
  exact List.not_mem_nil x this

theorem pushCap_eq_append {α : Type _} (c : Nat) (w : List α) (x : α) (h : w.length + 1 ≤ c) :
    pushCap c w x = w ++ [x] := by
  unfold pushCap
  split <;> rename_i hc
  · simp at hc; omega
  · rfl

/-! ## FIFO characterisation of iterated pushes -/

theorem foldl_pushCap_eq_drop {α : Type _} (c : Nat) (hc : 0 < c) (l : List α) :
    l.foldl (pushCap c) [] = l.drop (l.length - c) := by
  induction l using List.reverseRecOn with
  | nil => simp
  | append_singleton l x ih =>
    rw [List.foldl_append, List.foldl_cons, List.foldl_nil, ih]
    by_cases h : l.length + 1 ≤ c
    · have h0 : l.length - c = 0 := by omega
      have h1 : (l ++ [x]).length - c = 0 := by simp; omega
      rw [h0, h1, List.drop_zero, List.drop_zero]
      exact pushCap_eq_append c l x h
    · have hcl : c ≤ l.length := by omega
      have hlt : l.length - c < l.length := by omega
      have hdroplen : (l.drop (l.length - c)).length = c := by
        rw [List.length_drop]; omega
      unfold pushCap
      rw [if_pos (by simp [hdroplen])]
      rw [List.drop_eq_getElem_cons hlt]
      have h2 : (l ++ [x]).length - c = l.length - c + 1 := by simp; omega
      rw [h2, List.drop_append_of_le_length (by omega)]
      simp only [List.cons_append, List.tail_cons]

theorem rawDecisionsAux_length (l w : List Int) :
    (rawDecisionsAux w l).length = l.length := by
  induction l generalizing w with
  | nil => rfl
  | cons r rest ih => simp [rawDecisionsAux, ih]

theorem runUpdate_nil (s : PState) : runUpdate [] s = s := rfl

theorem runUpdate_cons (r : Int) (l : List Int) (s : PState) :
    runUpdate (r :: l) s = runUpdate l ((update_state r s).2) := rfl

theorem runUpdate_append (l : List Int) (x : Int) (s : PState) :
    runUpdate (l ++ [x]) s = (update_state x (runUpdate l s)).2 := by
  unfold runUpdate
  rw [List.foldl_append, List.foldl_cons, List.foldl_nil]

theorem runUpdate_rssis (l : List Int) (s : PState) :
    (runUpdate l s).ble_rssis = l.foldl (pushCap BLE_RSSI_SAMPLES) s.ble_rssis := by
  induction l generalizing s with
  | nil => rfl
  | cons r rest ih =>
    rw [runUpdate_cons, ih, List.foldl_cons, update_state_rssis]

theorem runUpdate_alerts (l : List Int) (s : PState) :
    (runUpdate l s).alert_states
      = (rawDecisionsAux s.ble_rssis l).foldl (pushCap ALERT_STATE_SAMPLES) s.alert_states := by
  induction l generalizing s with
  | nil => rfl
  | cons r rest ih =>
    rw [runUpdate_cons, ih, rawDecisionsAux, List.foldl_cons,
      update_state_rssis, update_state_alerts]

theorem runUpdate_rssis_init (l : List Int) :
    (runUpdate l initState).ble_rssis = l.drop (l.length - BLE_RSSI_SAMPLES) := by
  rw [runUpdate_rssis]
  exact foldl_pushCap_eq_drop BLE_RSSI_SAMPLES (by norm_num) l

theorem runUpdate_alerts_init (l : List Int) :
    (runUpdate l initState).alert_states
      = (rawDecisions l).drop (l.length - ALERT_STATE_SAMPLES) := by
  rw [runUpdate_alerts]
  have h := foldl_pushCap_eq_drop ALERT_STATE_SAMPLES (by norm_num) (rawDecisions l)
  rw [rawDecisions] at *
  rw [show (initState.alert_states : List Bool) = [] from rfl,
    show (initState.ble_rssis : List Int) = [] from rfl, h,
    rawDecisionsAux_length]

theorem runUpdate_rssis_length (l : List Int) :
    (runUpdate l initState).ble_rssis.length = min l.length BLE_RSSI_SAMPLES := by
  rw [runUpdate_rssis_init, List.length_drop]; omega

theorem runUpdate_alerts_length (l : List Int) :
    (runUpdate l initState).alert_states.length = min l.length ALERT_STATE_SAMPLES := by
  rw [runUpdate_alerts_init, List.length_drop, rawDecisions, rawDecisionsAux_length]; omega

/-- C2: for every sequence of pushes driven by `update_state` from the
initial state, the signal window `ble_rssis` has length `min n 8` (hence
never exceeds `S = 8`) and its contents are exactly the last `min(8, n)`
pushed samples in insertion order (oldest first); the decision window
`alert_states` satisfies the same FIFO bounded-length property with
capacity `M = 5` with respect to the sequence of raw decisions recorded. -/
theorem window_fifo_invariant (l : List Int) :
    (runUpdate l initState).ble_rssis.length = min l.length 8 ∧
    (runUpdate l initState).ble_rssis = l.drop (l.length - 8) ∧
    (runUpdate l initState).alert_states.length = min l.length 5 ∧
    (runUpdate l initState).alert_states = (rawDecisions l).drop (l.length - 5) :=
  ⟨runUpdate_rssis_length l, runUpdate_rssis_init l,
   runUpdate_alerts_length l, runUpdate_alerts_init l⟩

/-! ## The alert transition discipline (claim C1) -/

theorem meanRssi_lt_of_all_lt (w : List Int) (hw : w ≠ []) (h : ∀ y ∈ w, y < -78) :
    meanRssi w < ((BLE_RSSI_THRESHOLD : Int) : ℚ) := by
  have hlen : 0 < w.length := List.length_pos.mpr hw
  have hsum : w.sum ≤ w.length • (-79 : Int) :=
    List.sum_le_card_nsmul w (-79) (fun x hx => by have := h x hx; omega)
  have hsum' : (w.sum : ℚ) ≤ (w.length : ℚ) * (-79) := by
    have : w.sum ≤ (w.length : Int) * (-79) := by
      rw [← nsmul_eq_mul]; exact_mod_cast hsum
    exact_mod_cast this
  have hlq : (0 : ℚ) < (w.length : ℚ) := by exact_mod_cast hlen
  have hthr : ((BLE_RSSI_THRESHOLD : Int) : ℚ) = -78 := by norm_num
  rw [meanRssi, hthr, div_lt_iff₀ hlq]
  calc (w.sum : ℚ) ≤ (w.length : ℚ) * (-79) := hsum'
    _ < -78 * (w.length : ℚ) := by nlinarith

theorem update_state_abort (rssi : Int) (s : PState)
    (h : (pushCap BLE_RSSI_SAMPLES s.ble_rssis rssi).length < BLE_RSSI_SAMPLES) :
    update_state rssi s =
      (false, ⟨pushCap BLE_RSSI_SAMPLES s.ble_rssis rssi,
               pushCap ALERT_STATE_SAMPLES s.alert_states (stepDecision s.ble_rssis rssi),
               s.alert_state⟩) := by
  rw [update_state_eq, if_pos (Or.inl h)]

theorem update_state_commit (rssi : Int) (s : PState)
    (h1 : ¬((pushCap BLE_RSSI_SAMPLES s.ble_rssis rssi).length < BLE_RSSI_SAMPLES ∨
        (pushCap ALERT_STATE_SAMPLES s.alert_states (stepDecision s.ble_rssis rssi)).length + 1
          < ALERT_STATE_SAMPLES))
    (h2 : (pushCap ALERT_STATE_SAMPLES s.alert_states (stepDecision s.ble_rssis rssi)).all id
          = true ∨
        (pushCap ALERT_STATE_SAMPLES s.alert_states (stepDecision s.ble_rssis rssi)).any id
          = false)
    (h3 : s.alert_state ≠ stepDecision s.ble_rssis rssi) :
    update_state rssi s =
      (true, ⟨pushCap BLE_RSSI_SAMPLES s.ble_rssis rssi,
              pushCap ALERT_STATE_SAMPLES s.alert_states (stepDecision s.ble_rssis rssi),
              stepDecision s.ble_rssis rssi⟩) := by
  rw [update_state_eq, if_neg h1, if_pos ⟨h2, h3⟩]

theorem update_state_ret_iff (rssi : Int) (s : PState) :
    (update_state rssi s).1 = true ↔ ((update_state rssi s).2).alert_state ≠ s.alert_state := by
  rw [update_state_eq]
  split
  · simp
  · split <;> rename_i h2
    · simpa using (Ne.symm h2.2)
    · simp

theorem update_state_insufficient (rssi : Int) (s : PState)
    (h : (pushCap BLE_RSSI_SAMPLES s.ble_rssis rssi).length < BLE_RSSI_SAMPLES ∨
        (pushCap ALERT_STATE_SAMPLES s.alert_states (stepDecision s.ble_rssis rssi)).length + 1
          < ALERT_STATE_SAMPLES) :
    update_state rssi s =
      (false, ⟨pushCap BLE_RSSI_SAMPLES s.ble_rssis rssi,
               pushCap ALERT_STATE_SAMPLES s.alert_states (stepDecision s.ble_rssis rssi),
               s.alert_state⟩) := by
  rw [update_state_eq, if_pos h]

theorem update_state_no_commit (rssi : Int) (s : PState)
    (h1 : ¬((pushCap BLE_RSSI_SAMPLES s.ble_rssis rssi).length < BLE_RSSI_SAMPLES ∨
        (pushCap ALERT_STATE_SAMPLES s.alert_states (stepDecision s.ble_rssis rssi)).length + 1
          < ALERT_STATE_SAMPLES))
    (h2 : ¬(((pushCap ALERT_STATE_SAMPLES s.alert_states (stepDecision s.ble_rssis rssi)).all id
          = true ∨
        (pushCap ALERT_STATE_SAMPLES s.alert_states (stepDecision s.ble_rssis rssi)).any id
          = false) ∧
        s.alert_state ≠ stepDecision s.ble_rssis rssi)) :
    update_state rssi s =
      (false, ⟨pushCap BLE_RSSI_SAMPLES s.ble_rssis rssi,
               pushCap ALERT_STATE_SAMPLES s.alert_states (stepDecision s.ble_rssis rssi),
               s.alert_state⟩) := by
  rw [update_state_eq, if_neg h1, if_neg h2]

theorem update_state_change_shape (rssi : Int) (s : PState)
    (hlen : s.ble_rssis.length ≤ BLE_RSSI_SAMPLES)
    (hch : ((update_state rssi s).2).alert_state ≠ s.alert_state) :
    ((update_state rssi s).2).ble_rssis.length = 8 ∧
    ∃ v : Bool, (∀ b ∈ ((update_state rssi s).2).alert_states, b = v) ∧
      v ≠ s.alert_state ∧ ((update_state rssi s).2).alert_state = v := by
  by_cases h1 : (pushCap BLE_RSSI_SAMPLES s.ble_rssis rssi).length < BLE_RSSI_SAMPLES ∨
      (pushCap ALERT_STATE_SAMPLES s.alert_states (stepDecision s.ble_rssis rssi)).length + 1
        < ALERT_STATE_SAMPLES
  · rw [update_state_insufficient rssi s h1] at hch
    simp at hch
  by_cases h2 : ((pushCap ALERT_STATE_SAMPLES s.alert_states (stepDecision s.ble_rssis rssi)).all
        id = true ∨
      (pushCap ALERT_STATE_SAMPLES s.alert_states (stepDecision s.ble_rssis rssi)).any id
        = false) ∧
      s.alert_state ≠ stepDecision s.ble_rssis rssi
  · rw [update_state_commit rssi s h1 h2.1 h2.2]
    refine ⟨?_, stepDecision s.ble_rssis rssi, ?_, Ne.symm h2.2, rfl⟩
    · have hle := pushCap_length_le BLE_RSSI_SAMPLES s.ble_rssis rssi hlen
      push_neg at h1
      have h1a := h1.1
      have e8 : BLE_RSSI_SAMPLES = 8 := rfl
      show (pushCap BLE_RSSI_SAMPLES s.ble_rssis rssi).length = 8
      omega
    · intro b hb
      have hb' : b ∈ pushCap ALERT_STATE_SAMPLES s.alert_states (stepDecision s.ble_rssis rssi) :=
        hb
      rcases h2.1 with hall | hnone
      · have hbv := List.all_eq_true.mp hall b hb'
        have hd := List.all_eq_true.mp hall (stepDecision s.ble_rssis rssi)
          (pushCap_mem_last ALERT_STATE_SAMPLES (by norm_num) _ _)
        simp only [id] at hbv hd
        rw [hbv, hd]
      · have hbv := List.any_eq_false.mp hnone b hb'
        have hd := List.any_eq_false.mp hnone (stepDecision s.ble_rssis rssi)
          (pushCap_mem_last ALERT_STATE_SAMPLES (by norm_num) _ _)
        simp only [id, Bool.not_eq_true] at hbv hd
        rw [hbv, hd]
  · rw [update_state_no_commit rssi s h1 h2] at hch
    simp at hch

theorem update_state_not_unanimous (rssi : Int) (s : PState)
    (hT : ∃ b₁ ∈ pushCap ALERT_STATE_SAMPLES s.alert_states (stepDecision s.ble_rssis rssi),
            b₁ = true)
    (hF : ∃ b₂ ∈ pushCap ALERT_STATE_SAMPLES s.alert_states (stepDecision s.ble_rssis rssi),
            b₂ = false) :
    (update_state rssi s).1 = false ∧
    ((update_state rssi s).2).alert_state = s.alert_state := by
  rw [update_state_eq]
  split
  · simp
  · split <;> rename_i h2
    · exfalso
      rcases h2.1 with hall | hnone
      · obtain ⟨b, hb, hbf⟩ := hF
        have := List.all_eq_true.mp hall b hb
        simp [hbf] at this
      · obtain ⟨b, hb, hbt⟩ := hT
        have := List.any_eq_false.mp hnone b hb
        simp [hbt] at this
    · simp

theorem runUpdate_alert_false (l : List Int) (h : l.length < 8) :
    (runUpdate l initState).alert_state = false := by
  induction l using List.reverseRecOn with
  | nil => rfl
  | append_singleton l x ih =>
    have hl8 : l.length + 1 < 8 := by simpa using h
    rw [runUpdate_append]
    have hlen : (runUpdate l initState).ble_rssis.length = l.length := by
      rw [runUpdate_rssis_length]
      show min l.length 8 = l.length
      omega
    have hle : (runUpdate l initState).ble_rssis.length ≤ BLE_RSSI_SAMPLES := by
      rw [hlen]; show l.length ≤ 8; omega
    have hpush : (pushCap BLE_RSSI_SAMPLES (runUpdate l initState).ble_rssis x).length
        < BLE_RSSI_SAMPLES := by
      rw [pushCap_length _ _ _ hle, hlen]
      show min (l.length + 1) 8 < 8
      omega
    rw [update_state_abort x _ hpush]
    exact ih (by omega)

theorem rawDecisionsAux_all_true (l w : List Int)
    (hw : ∀ y ∈ w, y < -78) (hl : ∀ y ∈ l, y < -78) :
    ∀ d ∈ rawDecisionsAux w l, d = true := by
  induction l generalizing w with
  | nil => simp [rawDecisionsAux]
  | cons r rest ih =>
    intro d hd
    rw [rawDecisionsAux] at hd
    rcases List.mem_cons.mp hd with h | h
    · subst h
      have hmem : ∀ y ∈ pushCap BLE_RSSI_SAMPLES w r, y < -78 := by
        intro y hy
        rcases List.mem_append.mp (pushCap_subset _ _ _ _ hy) with h' | h'
        · exact hw y h'
        · rw [List.mem_singleton.mp h']
          exact hl r (List.mem_cons_self r rest)
      have hne := pushCap_ne_nil BLE_RSSI_SAMPLES (by norm_num) w r
      exact decide_eq_true (meanRssi_lt_of_all_lt _ hne hmem)
    · refine ih (pushCap BLE_RSSI_SAMPLES w r) ?_ ?_ d h
      · intro y hy
        rcases List.mem_append.mp (pushCap_subset _ _ _ _ hy) with h' | h'
        · exact hw y h'
        · rw [List.mem_singleton.mp h']
          exact hl r (List.mem_cons_self r rest)
      · exact fun y hy => hl y (List.mem_cons_of_mem r hy)

theorem below_threshold_scenario (l : List Int) (x : Int) (hl : l.length = 7)
    (hall : ∀ y ∈ l ++ [x], y < -78) :
    (∀ k, k ≤ 7 → (runUpdate ((l ++ [x]).take k) initState).alert_state = false) ∧
    (update_state x (runUpdate l initState)).1 = true ∧
    (runUpdate (l ++ [x]) initState).alert_state = true := by
  have hlx : (l ++ [x]).length = 8 := by simp [hl]
  have hpre : ∀ k, k ≤ 7 → (runUpdate ((l ++ [x]).take k) initState).alert_state = false := by
    intro k hk
    apply runUpdate_alert_false
    rw [List.length_take]
    omega
  have hfl : ∀ y ∈ l, y < -78 := fun y hy => hall y (List.mem_append_left _ hy)
  set s7 := runUpdate l initState with hs7
  have hr : s7.ble_rssis = l := by
    rw [hs7, runUpdate_rssis_init, hl]
    norm_num
  have hlen5 : s7.alert_states.length = 5 := by
    rw [hs7, runUpdate_alerts_length, hl]
    decide
  have hT : ∀ b ∈ s7.alert_states, b = true := by
    intro b hb
    rw [hs7, runUpdate_alerts_init] at hb
    exact rawDecisionsAux_all_true l [] (by simp) hfl b (List.mem_of_mem_drop hb)
  have halert : s7.alert_state = false := runUpdate_alert_false l (by omega)
  have hpush8 : pushCap BLE_RSSI_SAMPLES s7.ble_rssis x = l ++ [x] := by
    rw [hr]
    exact pushCap_eq_append _ _ _ (by rw [hl])
  have hd : stepDecision s7.ble_rssis x = true := by
    rw [stepDecision, hpush8]
    exact decide_eq_true (meanRssi_lt_of_all_lt _ (by simp) hall)
  have h1 : ¬((pushCap BLE_RSSI_SAMPLES s7.ble_rssis x).length < BLE_RSSI_SAMPLES ∨
      (pushCap ALERT_STATE_SAMPLES s7.alert_states (stepDecision s7.ble_rssis x)).length + 1
        < ALERT_STATE_SAMPLES) := by
    push_neg
    constructor
    · rw [hpush8, hlx]
    · rw [pushCap_length _ _ _ (by rw [hlen5]), hlen5]
      decide
  have h2 : (pushCap ALERT_STATE_SAMPLES s7.alert_states (stepDecision s7.ble_rssis x)).all id
      = true := by
    rw [List.all_eq_true]
    intro b hb
    rcases List.mem_append.mp (pushCap_subset _ _ _ _ hb) with h' | h'
    · simpa [id] using hT b h'
    · rw [List.mem_singleton.mp h', hd]
      rfl
  have h3 : s7.alert_state ≠ stepDecision s7.ble_rssis x := by
    rw [halert, hd]
    simp
  have e := update_state_commit x s7 h1 (Or.inl h2) h3
  refine ⟨hpre, ?_, ?_⟩
  · rw [e]
  · rw [runUpdate_append, ← hs7, e]
    exact hd

/-- C1: starting from the initial state, the committed `alert_state` changes
only on an `update_state` call where (after the push) the signal window
holds exactly `S = 8` samples and every entry of the decision window agrees
on a unanimous value that differs from the committed state; any call made
with fewer than `M = 5` recorded decisions, or whose decision window is not
unanimous, returns `False` and leaves `alert_state` unchanged; feeding 8
consecutive samples all below the threshold flips `alert_state` to `true`
exactly on the 8th call and not before; and `update_state` returns `True`
exactly on a call that changes `alert_state`. -/
theorem update_state_transition_discipline :
    (∀ (l : List Int) (r : Int),
      ((update_state r (runUpdate l initState)).2).alert_state
          ≠ (runUpdate l initState).alert_state →
        ((update_state r (runUpdate l initState)).2).ble_rssis.length = 8 ∧
        ∃ v : Bool,
          (∀ b ∈ ((update_state r (runUpdate l initState)).2).alert_states, b = v) ∧
          v ≠ (runUpdate l initState).alert_state ∧
          ((update_state r (runUpdate l initState)).2).alert_state = v) ∧
    (∀ (l : List Int) (r : Int), l.length < 5 →
      (update_state r (runUpdate l initState)).1 = false ∧
      ((update_state r (runUpdate l initState)).2).alert_state
        = (runUpdate l initState).alert_state) ∧
    (∀ (s : PState) (r : Int),
      (∃ b₁ ∈ pushCap ALERT_STATE_SAMPLES s.alert_states (stepDecision s.ble_rssis r),
        b₁ = true) →
      (∃ b₂ ∈ pushCap ALERT_STATE_SAMPLES s.alert_states (stepDecision s.ble_rssis r),
        b₂ = false) →
      (update_state r s).1 = false ∧ ((update_state r s).2).alert_state = s.alert_state) ∧
    (∀ (l : List Int) (x : Int), l.length = 7 → (∀ y ∈ l ++ [x], y < -78) →
      (∀ k, k ≤ 7 → (runUpdate ((l ++ [x]).take k) initState).alert_state = false) ∧
      (update_state x (runUpdate l initState)).1 = true ∧
      (runUpdate (l ++ [x]) initState).alert_state = true) ∧
    (∀ (s : PState) (r : Int),
      (update_state r s).1 = true ↔ ((update_state r s).2).alert_state ≠ s.alert_state) := by
  refine ⟨?_, ?_, fun s r => update_state_not_unanimous r s,
    below_threshold_scenario, fun s r => update_state_ret_iff r s⟩
  · intro l r hch
    apply update_state_change_shape r (runUpdate l initState) ?_ hch
    rw [runUpdate_rssis_length]
    show min l.length 8 ≤ 8
    omega
  · intro l r hl
    have hlen : (runUpdate l initState).ble_rssis.length = l.length := by
      rw [runUpdate_rssis_length]
      show min l.length 8 = l.length
      omega
    have hle : (runUpdate l initState).ble_rssis.length ≤ BLE_RSSI_SAMPLES := by
      rw [hlen]; show l.length ≤ 8; omega
    have hpush : (pushCap BLE_RSSI_SAMPLES (runUpdate l initState).ble_rssis r).length
        < BLE_RSSI_SAMPLES := by
      rw [pushCap_length _ _ _ hle, hlen]
      show min (l.length + 1) 8 < 8
      omega
    rw [update_state_abort r _ hpush]
    exact ⟨rfl, rfl⟩

/-- Witness for C1: concrete instances with all hypotheses discharged. -/
theorem update_state_transition_discipline_witness :
    ((update_state (-80) (runUpdate (List.replicate 7 (-80)) initState)).1 = true ∧
     (runUpdate (List.replicate 7 (-80) ++ [(-80 : Int)]) initState).alert_state = true) ∧
    ((update_state (-80) (runUpdate [(-80 : Int)] initState)).1 = false ∧
     ((update_state (-80) (runUpdate [(-80 : Int)] initState)).2).alert_state
       = (runUpdate [(-80 : Int)] initState).alert_state) ∧
    ((update_state (-80) ⟨List.replicate 8 (-80), [true, false, true, false], false⟩).1
       = false) ∧
    ((update_state (-100) initState).1 = true ↔
      ((update_state (-100) initState).2).alert_state ≠ initState.alert_state) := by
  have h4 := update_state_transition_discipline.2.2.2.1 (List.replicate 7 (-80)) (-80)
    (by decide) (by decide)
  have h2 := update_state_transition_discipline.2.1 [(-80 : Int)] (-80) (by decide)
  have h3 := update_state_transition_discipline.2.2.1
    ⟨List.replicate 8 (-80), [true, false, true, false], false⟩ (-80)
    (by decide) (by decide)
  exact ⟨⟨h4.2.1, h4.2.2⟩, h2, h3.1,
    update_state_transition_discipline.2.2.2.2 initState (-100)⟩

/-! ## Guardian role: `connect` (lines 179-240)

The radio is abstracted: a scan yields a list of advertisements, each
carrying the outcome of the two filter checks (`addr_ok` for
`bytes_to_mac(adv.address.address_bytes) == BLE_MAC_PERIPHERAL`, `has_uart`
for the `services` check), its RSSI, and whether `ble.connect(adv)` would
succeed (`connect_ok`).  The two handshake writes are abstracted by success
flags `w1` (address write) and `w2` (alert-state write). -/

structure Adv where
  addr_ok : Bool
  has_uart : Bool
  rssi : Int
  connect_ok : Bool
deriving DecidableEq

/-- Result of one guardian cycle: the final core state, the list of RSSI
values fed to `update_state` (in order), whether a connection was
established, and whether `disconnect` was called. -/
structure ConnectResult where
  state : PState
  fed : List Int
  connected : Bool
  disconnected : Bool
deriving DecidableEq

/-- The scan `for`-loop of `connect` (lines 192-217).  Returns the state,
the samples fed to `update_state`, whether a connection was established
(`break` after a successful `ble.connect`), and whether the loop ran to
exhaustion without `break` (so Python's `for`-`else` fires).  A candidate
failing either filter is skipped (`continue`); a candidate whose
`update_state` returns `False` breaks the scan with no connection; a
connect exception is caught and the scan continues (lines 215-217). -/
def scanLoop (s : PState) (fed : List Int) : List Adv → PState × List Int × Bool × Bool
  | [] => (s, fed, false, true)
  | a :: rest =>
    if a.addr_ok = false then scanLoop s fed rest
    else if a.has_uart = false then scanLoop s fed rest
    else if (update_state a.rssi s).1 = false then
      ((update_state a.rssi s).2, fed ++ [a.rssi], false, false)
    else if a.connect_ok = true then
      ((update_state a.rssi s).2, fed ++ [a.rssi], true, false)
    else
      scanLoop (update_state a.rssi s).2 (fed ++ [a.rssi]) rest

/-- The post-scan handshake section of `connect` (lines 224-240): with no
connection the function just returns (no disconnect); otherwise the address
write and the alert-state write run inside `try`/`except`/`finally`: if
either write fails, the exception handler resets `ble_rssis` to `[]`
(line 238), and `disconnect` always runs (line 240). -/
def handshake (w1 w2 : Bool) (s2 : PState) (fed2 : List Int) (connected : Bool) :
    ConnectResult :=
  if connected = false then ⟨s2, fed2, false, false⟩
  else if w1 && w2 then ⟨s2, fed2, true, true⟩
  else ⟨{ s2 with ble_rssis := [] }, fed2, true, true⟩

/-- `connect` (lines 179-240): run the scan loop; if it exhausted (Python
`for`-`else`), feed the synthetic "far" sample `BLE_RSSI_THRESHOLD - 1`
(line 220); then run the handshake section. -/
def connect (advs : List Adv) (w1 w2 : Bool) (s : PState) : ConnectResult :=
  match scanLoop s [] advs with
  | (s1, fed1, connected, exhausted) =>
    handshake w1 w2
      (if exhausted then (update_state (BLE_RSSI_THRESHOLD - 1) s1).2 else s1)
      (if exhausted then fed1 ++ [BLE_RSSI_THRESHOLD - 1] else fed1)
      connected

theorem connect_def (advs : List Adv) (w1 w2 : Bool) (s : PState) :
    connect advs w1 w2 s =
      handshake w1 w2
        (if (scanLoop s [] advs).2.2.2 then
          (update_state (BLE_RSSI_THRESHOLD - 1) (scanLoop s [] advs).1).2
         else (scanLoop s [] advs).1)
        (if (scanLoop s [] advs).2.2.2 then
          (scanLoop s [] advs).2.1 ++ [BLE_RSSI_THRESHOLD - 1]
         else (scanLoop s [] advs).2.1)
        (scanLoop s [] advs).2.2.1 := rfl

theorem handshake_disconnected (w1 w2 : Bool) (s2 : PState) (fed2 : List Int) (c : Bool) :
    (handshake w1 w2 s2 fed2 c).disconnected = c ∧
    (handshake w1 w2 s2 fed2 c).connected = c := by
  cases c <;> cases w1 <;> cases w2 <;> simp [handshake]

theorem handshake_write_fail (w1 w2 : Bool) (s2 : PState) (fed2 : List Int) (c : Bool)
    (hc : c = true) (hw : (w1 && w2) = false) :
    (handshake w1 w2 s2 fed2 c).state.ble_rssis = [] := by
  subst hc
  rw [handshake, if_neg (by simp), if_neg (by simp [hw])]

/-! ## Error handling in the guardian cycle (claim C3) -/

/-- Counterexample to C3 as stated: a connect-error does NOT reset the
SignalWindow.  Starting from the reachable state after seven `-80` samples,
the single qualifying advertisement triggers a state change, its connection
attempt fails (`connect_ok = false`), the `except` branch continues the
scan, the scan exhausts and feeds the synthetic sample — and the final
SignalWindow holds eight samples rather than being reset to empty. -/
theorem connect_error_no_reset_cex :
    (connect [⟨true, true, -80, false⟩] true true
        (runUpdate (List.replicate 7 (-80)) initState)).state.ble_rssis
      = [-80, -80, -80, -80, -80, -80, -80, -79] ∧
    ¬(connect [⟨true, true, -80, false⟩] true true
        (runUpdate (List.replicate 7 (-80)) initState)).state.ble_rssis = [] := by
  constructor
  · with_unfolding_all decide
  · with_unfolding_all decide

/-- C3 amended: in the guardian cycle, the peer is disconnected exactly
when a connection was established, regardless of whether the writes
succeeded; a write failure after a successful connection is caught and
resets the SignalWindow to empty; and a connect-error on a qualifying
candidate that triggered a state change is caught and the scan simply
continues with the remaining candidates (without resetting the window at
that point).  Transient failures are never fatal: `connect` is a total
function of its inputs. -/
theorem connect_failure_handling (advs : List Adv) (w1 w2 : Bool) (s : PState) :
    ((connect advs w1 w2 s).disconnected = (connect advs w1 w2 s).connected) ∧
    ((connect advs w1 w2 s).connected = true → (w1 && w2) = false →
        (connect advs w1 w2 s).state.ble_rssis = []) ∧
    (∀ (a : Adv) (rest : List Adv) (fed : List Int),
        a.addr_ok = true → a.has_uart = true → (update_state a.rssi s).1 = true →
        a.connect_ok = false →
        scanLoop s fed (a :: rest)
          = scanLoop (update_state a.rssi s).2 (fed ++ [a.rssi]) rest) := by
  refine ⟨?_, ?_, ?_⟩
  · rw [connect_def]
    rw [(handshake_disconnected _ _ _ _ _).1, (handshake_disconnected _ _ _ _ _).2]
  · intro hconn hw
    rw [connect_def]
    rw [connect_def, (handshake_disconnected _ _ _ _ _).2] at hconn
    exact handshake_write_fail _ _ _ _ _ hconn hw
  · intro a rest fed ha hu hup hc
    rw [scanLoop, if_neg (by simp [ha]), if_neg (by simp [hu]), if_neg (by simp [hup]),
      if_neg (by simp [hc])]

/-- Witness for C3 (amended) at concrete inputs: a failing second write
after a successful connection resets the window, and the peer is still
disconnected; a connect-error continues the scan. -/
theorem connect_failure_handling_witness :
    (connect [⟨true, true, -80, true⟩] true false
        (runUpdate (List.replicate 7 (-80)) initState)).connected = true ∧
    (connect [⟨true, true, -80, true⟩] true false
        (runUpdate (List.replicate 7 (-80)) initState)).disconnected = true ∧
    (connect [⟨true, true, -80, true⟩] true false
        (runUpdate (List.replicate 7 (-80)) initState)).state.ble_rssis = [] ∧
    scanLoop (runUpdate (List.replicate 7 (-80)) initState) []
        [⟨true, true, -80, false⟩]
      = scanLoop (update_state (-80) (runUpdate (List.replicate 7 (-80)) initState)).2
          [(-80 : Int)] [] := by
  have h := connect_failure_handling [⟨true, true, -80, true⟩] true false
    (runUpdate (List.replicate 7 (-80)) initState)
  have hc : (connect [⟨true, true, -80, true⟩] true false
      (runUpdate (List.replicate 7 (-80)) initState)).connected = true := by
    with_unfolding_all decide
  have h4 := connect_failure_handling [⟨true, true, -80, false⟩] true true
    (runUpdate (List.replicate 7 (-80)) initState)
  have hcont := h4.2.2 ⟨true, true, -80, false⟩ [] [] rfl rfl
    (by with_unfolding_all decide) rfl
  refine ⟨hc, ?_, h.2.1 hc rfl, by simpa using hcont⟩
  rw [h.1, hc]

/-! ## Degrade-on-absence (claim C5) -/

theorem scanLoop_skip_all (advs : List Adv) (s : PState) (fed : List Int)
    (h : ∀ a ∈ advs, a.addr_ok = false ∨ a.has_uart = false) :
    scanLoop s fed advs = (s, fed, false, true) := by
  induction advs generalizing s fed with
  | nil => rfl
  | cons a rest ih =>
    have hrest : ∀ b ∈ rest, b.addr_ok = false ∨ b.has_uart = false :=
      fun b hb => h b (List.mem_cons_of_mem a hb)
    rw [scanLoop]
    rcases h a (List.mem_cons_self a rest) with ha | ha
    · rw [if_pos ha]
      exact ih s fed hrest
    · by_cases ha2 : a.addr_ok = false
      · rw [if_pos ha2]
        exact ih s fed hrest
      · rw [if_neg ha2, if_pos ha]
        exact ih s fed hrest

/-- C5: if every discovered advertisement fails the allowlisted-address
check or the service check (in particular when nothing is discovered), the
guardian cycle calls `update_state` exactly once, with the synthetic "far"
sample `BLE_RSSI_THRESHOLD - 1`, establishes no connection, and the final
state is exactly the one-step update of the incoming state; moreover from
the initial state such a cycle does not by itself raise the alert. -/
theorem no_candidate_synthetic_sample (advs : List Adv) (w1 w2 : Bool) (s : PState)
    (h : ∀ a ∈ advs, a.addr_ok = false ∨ a.has_uart = false) :
    connect advs w1 w2 s =
      ⟨(update_state (BLE_RSSI_THRESHOLD - 1) s).2, [BLE_RSSI_THRESHOLD - 1],
        false, false⟩ ∧
    (connect advs w1 w2 initState).state.alert_state = false := by
  have key : ∀ t : PState, connect advs w1 w2 t =
      ⟨(update_state (BLE_RSSI_THRESHOLD - 1) t).2, [BLE_RSSI_THRESHOLD - 1],
        false, false⟩ := by
    intro t
    rw [connect_def, scanLoop_skip_all advs t [] h]
    simp [handshake]
  refine ⟨key s, ?_⟩
  rw [key initState]
  rw [update_state_abort _ _ (by decide)]
  rfl

/-- Witness for C5: a scan discovering one wrong-address advertisement and
one advertisement without the UART service feeds exactly the synthetic
sample `-79 = BLE_RSSI_THRESHOLD - 1`. -/
theorem no_candidate_synthetic_sample_witness :
    connect [⟨false, true, -50, true⟩, ⟨true, false, -50, true⟩] true true initState =
      ⟨(update_state (BLE_RSSI_THRESHOLD - 1) initState).2, [BLE_RSSI_THRESHOLD - 1],
        false, false⟩ ∧
    (connect [⟨false, true, -50, true⟩, ⟨true, false, -50, true⟩] true true
        initState).state.alert_state = false :=
  no_candidate_synthetic_sample
    [⟨false, true, -50, true⟩, ⟨true, false, -50, true⟩] true true initState (by decide)

/-! ## Handshake wire format and the ward role (claims C4, C6)

Byte payloads are modelled as `List Nat` (byte values).  The transport is
abstracted as a reliable ordered byte stream: the bytes available to the
ward are the concatenation of the guardian's writes. -/

/-- One hex digit, lowercase, as produced by Python's `x` format. -/
def hexDigit (n : Nat) : Char :=
  if n < 10 then Char.ofNat (48 + n) else Char.ofNat (87 + n)

/-- Python `f"{b:02x}"` for a byte value `b < 256` (address bytes are
always single bytes). -/
def byteHex (b : Nat) : String := String.mk [hexDigit (b / 16), hexDigit (b % 16)]

/-- `bytes_to_mac` (lines 135-137):
`":".join(f"{b:02x}" for b in reversed(addr_bytes))`. -/
def bytes_to_mac (addr_bytes : List Nat) : String :=
  String.intercalate (":") (addr_bytes.reverse.map byteHex)

/-- `str(int(alert_state)).encode("utf-8")` (line 235): one ASCII digit. -/
def encodeAlert (st : Bool) : List Nat := [48 + (if st then 1 else 0)]

/-- The guardian's two handshake writes (lines 230-235): the 6 raw bytes
of its own address, then (after a settle delay) the alert digit. -/
def guardianWrites (ownAddr : List Nat) (st : Bool) : List Nat × List Nat :=
  (ownAddr, encodeAlert st)

/-- The byte stream the ward sees: the two writes concatenated. -/
def handshakeStream (ownAddr : List Nat) (st : Bool) : List Nat :=
  (guardianWrites ownAddr st).1 ++ (guardianWrites ownAddr st).2

/-- `uart.readline()` on a byte stream: bytes up to and including the
first newline, or (on timeout) everything available. -/
def readline : List Nat → List Nat
  | [] => []
  | b :: rest => if b = 10 then [b] else b :: readline rest

/-- `.decode("utf8")` restricted to the single-byte payloads used by the
handshake (ASCII digits and separators). -/
def decodeAscii (bs : List Nat) : String := String.mk (bs.map Char.ofNat)

def isPySpace (c : Char) : Bool := c = ' ' ∨ c = '\t' ∨ c = '\n' ∨ c = '\r'

/-- Python `str.strip()`: whitespace removed from both ends. -/
def pyStrip (s : String) : String :=
  String.mk (((s.data.dropWhile isPySpace).reverse.dropWhile isPySpace).reverse)

/-- Python `int()` on the non-negative digit strings used by the
handshake. -/
def parseDigits (cs : List Char) : Nat := cs.foldl (fun n c => n * 10 + (c.toNat - 48)) 0

/-- The ward's decode path (lines 256-266): read exactly 6 bytes and
render them with `bytes_to_mac`; read a line, decode and strip it; `none`
when the stripped line is empty, otherwise `bool(int(data))`. -/
def wardDecode (stream : List Nat) : String × Option Bool :=
  (bytes_to_mac (stream.take 6),
   if pyStrip (decodeAscii (readline (stream.drop 6))) = "" then none
   else some (decide (parseDigits (pyStrip (decodeAscii (readline (stream.drop 6)))).data ≠ 0)))

/-- `wait_for_connection` (lines 243-268) on the pure data path: `is_conn`
abstracts `ble.connected` (when false the tick sleeps and returns with no
change); `stream` is the byte stream available on the channel; the result
is the new global `alert_state`.  The received state is assigned only when
the rendered 6-byte address equals the allowlisted central address and the
stripped line is non-empty. -/
def wait_for_connection (is_conn : Bool) (stream : List Nat) (al : Bool) : Bool :=
  if is_conn = false then al
  else if (wardDecode stream).1 = BLE_MAC_CENTRAL then
    match (wardDecode stream).2 with
    | some b => b
    | none => al
  else al

/-- Counterexample to C4 as stated: the guardian's second write is the
single ASCII digit with NO line terminator (neither LF nor CR appears
anywhere in the handshake stream), while the claim asserts a digit plus a
line terminator is sent. -/
theorem handshake_no_terminator_cex :
    (guardianWrites [54, 199, 11, 180, 167, 244] true).2 = [49] ∧
    ¬(10 ∈ handshakeStream [54, 199, 11, 180, 167, 244] true) ∧
    ¬(13 ∈ handshakeStream [54, 199, 11, 180, 167, 244] true) := by decide

/-- C4 amended: the handshake payload is 6 raw address bytes followed
(after the settle delay) by a single ASCII digit with no line terminator
(the ward's line read ends by timeout); decoding on the ward side — read
exactly 6 bytes and render with `bytes_to_mac`, then read a line, strip
and parse it as a boolean digit — yields exactly the rendered address and
the boolean alert state the guardian sent. -/
theorem handshake_round_trip (addr : List Nat) (st : Bool)
    (h6 : addr.length = 6) (_hb : ∀ b ∈ addr, b < 256) :
    wardDecode (handshakeStream addr st) = (bytes_to_mac addr, some st) := by
  have htake : (handshakeStream addr st).take 6 = addr := by
    rw [handshakeStream]
    show (addr ++ encodeAlert st).take 6 = addr
    rw [List.take_append_of_le_length (by omega), List.take_of_length_le (by omega)]
  have hdrop : (handshakeStream addr st).drop 6 = encodeAlert st := by
    rw [handshakeStream]
    show (addr ++ encodeAlert st).drop 6 = encodeAlert st
    rw [← h6, List.drop_left]
  rw [wardDecode, htake, hdrop]
  have h2 : ∀ b : Bool,
      (if pyStrip (decodeAscii (readline (encodeAlert b))) = "" then none
       else some (decide (parseDigits
          (pyStrip (decodeAscii (readline (encodeAlert b)))).data ≠ 0)))
        = some b := by decide
  rw [h2 st]

/-- Witness for C4 (amended): round trip of the central's address bytes
and alert `true`. -/
theorem handshake_round_trip_witness :
    wardDecode (handshakeStream [54, 199, 11, 180, 167, 244] true)
      = (bytes_to_mac [54, 199, 11, 180, 167, 244], some true) ∧
    bytes_to_mac [54, 199, 11, 180, 167, 244] = BLE_MAC_CENTRAL :=
  ⟨handshake_round_trip [54, 199, 11, 180, 167, 244] true (by decide) (by decide),
   by decide⟩

/-- C6: in the ward's `wait_for_connection`, when no peer is connected the
state is unchanged; when the 6 received bytes do not render to the
allowlisted central address the exchange is discarded with no state
update; when the stripped line is empty the state is also unchanged; and
the alert state is assigned from the received digit exactly when the
address matches and a non-empty line was read. -/
theorem ward_identity_check (stream : List Nat) (al : Bool) :
    (wait_for_connection false stream al = al) ∧
    ((wardDecode stream).1 ≠ BLE_MAC_CENTRAL → wait_for_connection true stream al = al) ∧
    ((wardDecode stream).2 = none → wait_for_connection true stream al = al) ∧
    (∀ b : Bool, (wardDecode stream).1 = BLE_MAC_CENTRAL → (wardDecode stream).2 = some b →
        wait_for_connection true stream al = b) := by
  refine ⟨rfl, ?_, ?_, ?_⟩
  · intro h
    rw [wait_for_connection, if_neg (by simp), if_neg h]
  · intro h
    rw [wait_for_connection, if_neg (by simp)]
    split
    · rw [h]
    · rfl
  · intro b h1 h2
    rw [wait_for_connection, if_neg (by simp), if_pos h1, h2]

/-- Witness for C6: a spoofed address leaves the state unchanged; the
allowlisted address with digit `'0'` assigns `false`; a short read (no
line payload) leaves the state unchanged. -/
theorem ward_identity_check_witness :
    wait_for_connection true [0, 0, 0, 0, 0, 0, 49] true = true ∧
    wait_for_connection true [54, 199, 11, 180, 167, 244, 48] true = false ∧
    wait_for_connection true [54, 199, 11, 180, 167, 244] true = true := by
  refine ⟨?_, ?_, ?_⟩
  · exact (ward_identity_check [0, 0, 0, 0, 0, 0, 49] true).2.1 (by decide)
  · exact (ward_identity_check [54, 199, 11, 180, 167, 244, 48] true).2.2.2 false
      (by decide) (by decide)
  · exact (ward_identity_check [54, 199, 11, 180, 167, 244] true).2.2.1 (by decide)

/-! ## Haptics (claim C9) -/

/-- Python `int()`: truncation toward zero. -/
def pyInt (q : ℚ) : Int := if 0 ≤ q then ⌊q⌋ else -⌊-q⌋

/-- `vibrate` (lines 99-109) returns the effect index actually played.
Line 104 overwrites the `effect` parameter:
`effect = int(HAPTIC_EFFECT_ALERT + 5 - level / 20)` — the caller's
`effect` argument is accepted but never used. -/
def vibrate (effect : Int) (level : ℚ) : Int :=
  pyInt ((HAPTIC_EFFECT_ALERT : ℚ) + 5 - level / 20)

/-- C9 evaluation: the startup call `vibrate()` (defaults
`effect = HAPTIC_EFFECT_NOTIFY = 47`, `level = 80`) actually plays effect
`59`, not the caller-named effect `47`, because line 104 recomputes the
effect from the level alone; the alert call `vibrate(58, 100)` happens to
play `58` because the recomputation coincides there. -/
theorem vibrate_played_effect_eval :
    vibrate HAPTIC_EFFECT_NOTIFY HAPTIC_EFFECT_NOTIFY_LEVEL = 59 ∧
    vibrate HAPTIC_EFFECT_NOTIFY HAPTIC_EFFECT_NOTIFY_LEVEL ≠ HAPTIC_EFFECT_NOTIFY ∧
    vibrate HAPTIC_EFFECT_ALERT HAPTIC_EFFECT_ALERT_LEVEL = 58 := by
  refine ⟨?_, ?_, ?_⟩ <;> with_unfolding_all decide

/-! ## Output controller (claim C7, main loop lines 356-371) -/

inductive Color
  | off | blue | green | cyan | purple | red | yellow
deriving DecidableEq

/-- The globals read and written by the output section of one main-loop
tick. -/
structure OutState where
  alert_state : Bool
  alert_timestamp : ℚ
  status_timestamp : ℚ
  silent : Bool
deriving DecidableEq

/-- The output section of one main-loop tick (lines 356-371): the alert
branch fires when `alert_state` holds and
`now > alert_timestamp + HAPTIC_EFFECT_ALERT_SECONDS`, blinking yellow for
0.25s and (unless muted) playing `vibrate(HAPTIC_EFFECT_ALERT,
HAPTIC_EFFECT_ALERT_LEVEL)`; the `elif` status branch fires when
`alert_state` is false and `now > status_timestamp + LED_STATUS_SECONDS`,
blinking red on low battery and blue otherwise.  Returns the new state,
the blink (color, duration) if any, and the haptic (played effect, level)
if any. -/
def outputTick (now : ℚ) (low_batt : Bool) (s : OutState) :
    OutState × Option (Color × ℚ) × Option (Int × ℚ) :=
  if s.alert_state = true ∧ s.alert_timestamp + HAPTIC_EFFECT_ALERT_SECONDS < now then
    ({ s with alert_timestamp := now }, some (Color.yellow, 1/4),
     if s.silent = true then none
     else some (vibrate HAPTIC_EFFECT_ALERT HAPTIC_EFFECT_ALERT_LEVEL,
       HAPTIC_EFFECT_ALERT_LEVEL))
  else if s.alert_state = false ∧ s.status_timestamp + LED_STATUS_SECONDS < now then
    ({ s with status_timestamp := now },
     some (if low_batt then Color.red else Color.blue, 1/4), none)
  else (s, none, none)

/-- Counterexample to C7 as stated: with `alert_state` true and exactly
one second elapsed since the last alert pulse ("at least 1 second"), the
code does NOT blink — line 357 requires strictly more than
`HAPTIC_EFFECT_ALERT_SECONDS` to have elapsed. -/
theorem output_boundary_cex :
    (outputTick 1 false ⟨true, 0, 0, false⟩).2.1 = none ∧
    (outputTick 1 false ⟨true, 0, 0, false⟩).2.2 = none ∧
    (outputTick 5 false ⟨false, 0, 0, false⟩).2.1 = none := by
  refine ⟨?_, ?_, ?_⟩ <;> with_unfolding_all decide

/-- C7 amended: on every tick at most one output branch fires (at most one
of the two timestamps is rewritten), with alert taking priority and each
branch using its own timestamp.  If `alert_state` is true and strictly
more than 1 second has elapsed since the last alert pulse, the indicator
blinks yellow and, unless muted, the haptic plays the alert effect 58 at
level 100; if `alert_state` is false and strictly more than 5 seconds have
elapsed since the last status pulse, the indicator blinks red when the
battery is low and blue otherwise, with no haptic.  The tick never changes
`alert_state`, and mute never affects the blink output, only the haptic. -/
theorem output_controller_behavior (now : ℚ) (lb : Bool) (s : OutState) :
    (s.alert_state = true → s.alert_timestamp + 1 < now →
      outputTick now lb s = ({ s with alert_timestamp := now }, some (Color.yellow, 1/4),
        if s.silent = true then none else some (58, 100))) ∧
    (s.alert_state = false → s.status_timestamp + 5 < now →
      outputTick now lb s = ({ s with status_timestamp := now },
        some (if lb then Color.red else Color.blue, 1/4), none)) ∧
    ((outputTick now lb s).1.alert_state = s.alert_state) ∧
    ((outputTick now lb s).1.silent = s.silent) ∧
    ((outputTick now lb s).1.alert_timestamp = s.alert_timestamp ∨
     (outputTick now lb s).1.status_timestamp = s.status_timestamp) ∧
    ((outputTick now lb { s with silent := !s.silent }).2.1 = (outputTick now lb s).2.1) := by
  have hv : vibrate HAPTIC_EFFECT_ALERT HAPTIC_EFFECT_ALERT_LEVEL = 58 := by
    with_unfolding_all decide
  refine ⟨?_, ?_, ?_, ?_, ?_, ?_⟩
  · intro ha ht
    rw [outputTick, if_pos ⟨ha, ht⟩, hv]
  · intro ha ht
    rw [outputTick, if_neg (by simp [ha]), if_pos ⟨ha, ht⟩]
  · rw [outputTick]
    split
    · rfl
    · split <;> rfl
  · rw [outputTick]
    split
    · rfl
    · split <;> rfl
  · rw [outputTick]
    split
    · right; rfl
    · split
      · left; rfl
      · left; rfl
  · by_cases h1 : s.alert_state = true ∧ s.alert_timestamp + HAPTIC_EFFECT_ALERT_SECONDS < now
    · simp [outputTick, h1]
    · by_cases h2 : s.alert_state = false ∧ s.status_timestamp + LED_STATUS_SECONDS < now
      · simp [outputTick, h1, h2]
      · simp [outputTick, h1, h2]

/-- Witness for C7 (amended) at concrete inputs: alert branch fires at
`now = 2`, status branch fires at `now = 6` with low battery. -/
theorem output_controller_behavior_witness :
    outputTick 2 false ⟨true, 0, 0, false⟩
      = (⟨true, 2, 0, false⟩, some (Color.yellow, 1/4), some (58, 100)) ∧
    outputTick 6 true ⟨false, 0, 0, false⟩
      = (⟨false, 0, 6, false⟩, some (Color.red, 1/4), none) ∧
    (outputTick 2 false ⟨true, 0, 0, true⟩).2.1 = (outputTick 2 false ⟨true, 0, 0, false⟩).2.1 := by
  have h1 := (output_controller_behavior 2 false ⟨true, 0, 0, false⟩).1 rfl
    (by with_unfolding_all decide)
  have h2 := (output_controller_behavior 6 true ⟨false, 0, 0, false⟩).2.1 rfl
    (by with_unfolding_all decide)
  have h3 := (output_controller_behavior 2 false ⟨true, 0, 0, false⟩).2.2.2.2.2
  exact ⟨h1, h2, h3⟩

/-! ## Button controller (claims C8 and C10, main loop lines 337-354) -/

/-- The globals read and written by the button section of one main-loop
tick: the previous button level, the last falling-edge timestamp, and the
mute flag.  At boot `btn_state = btn.value` (line 86), `btn_timestamp = 0`
(line 87) and `silent = False` (line 91). -/
structure BtnState where
  btn_state : Bool
  btn_timestamp : ℚ
  silent : Bool
deriving DecidableEq

/-- Outputs of one button tick: new state, whether the falling edge fired
(mute toggled and the diagnostic dump printed, lines 341-346), whether the
long-press purple-blink cue fired (line 351), and whether `shutdown()` was
invoked (line 352). -/
structure BtnTickOut where
  state : BtnState
  dumped : Bool
  cue : Bool
  shutdownFired : Bool
deriving DecidableEq

/-- One button tick (lines 337-354).  The button is active-low: a falling
edge (`btn_state != btn_state_new and not btn_state_new`) records the
timestamp, toggles `silent` and prints the info dump; then, if the level
is low and `now > btn_timestamp + BTN_LONG_PRESS_SECONDS`, the purple cue
blinks and `shutdown()` runs (deep sleep: the tick ends without the final
`btn_state = btn_state_new` assignment taking further effect). -/
def btnTick (now : ℚ) (lvl : Bool) (s : BtnState) : BtnTickOut :=
  let edge := s.btn_state ≠ lvl ∧ lvl = false
  let s1 := if edge then { s with btn_timestamp := now, silent := !s.silent } else s
  if lvl = false ∧ s1.btn_timestamp + BTN_LONG_PRESS_SECONDS < now then
    ⟨s1, decide edge, true, true⟩
  else
    ⟨{ s1 with btn_state := lvl }, decide edge, false, false⟩

/-- A run of button ticks `(now, level)`; `shutdown()` halts execution, so
the run stops there.  Returns the final state, the number of mute
toggles/dumps, and whether shutdown fired. -/
def runBtn : List (ℚ × Bool) → BtnState → BtnState × Nat × Bool
  | [], s => (s, 0, false)
  | (now, lvl) :: rest, s =>
    let o := btnTick now lvl s
    if o.shutdownFired then (o.state, (if o.dumped then 1 else 0), true)
    else
      ((runBtn rest o.state).1,
       (if o.dumped then 1 else 0) + (runBtn rest o.state).2.1,
       (runBtn rest o.state).2.2)

theorem btnTick_edge (now : ℚ) (s : BtnState) (hs : s.btn_state = true) :
    btnTick now false s = ⟨⟨false, now, !s.silent⟩, true, false, false⟩ := by
  obtain ⟨b, t, m⟩ := s
  simp only [] at hs
  subst hs
  have h : ¬(now + BTN_LONG_PRESS_SECONDS < now) := by
    intro h
    rw [show (BTN_LONG_PRESS_SECONDS : ℚ) = 8 from rfl] at h
    linarith
  simp [btnTick, h]

theorem btnTick_low (now : ℚ) (s : BtnState) (hs : s.btn_state = false)
    (ht : now ≤ s.btn_timestamp + BTN_LONG_PRESS_SECONDS) :
    btnTick now false s = ⟨s, false, false, false⟩ := by
  obtain ⟨b, t, m⟩ := s
  simp only [] at hs ht
  subst hs
  have h2 : ¬(t + BTN_LONG_PRESS_SECONDS < now) := not_lt.mpr ht
  simp [btnTick, h2]

theorem btnTick_low_shutdown (now : ℚ) (s : BtnState) (hs : s.btn_state = false)
    (ht : s.btn_timestamp + BTN_LONG_PRESS_SECONDS < now) :
    btnTick now false s = ⟨s, false, true, true⟩ := by
  obtain ⟨b, t, m⟩ := s
  simp only [] at hs ht
  subst hs
  simp [btnTick, ht]

theorem btnTick_release (now : ℚ) (s : BtnState) :
    btnTick now true s = ⟨{ s with btn_state := true }, false, false, false⟩ := by
  obtain ⟨b, t, m⟩ := s
  simp [btnTick]

theorem runBtn_lows_release (lows : List (ℚ × Bool)) (tr : ℚ) (s : BtnState)
    (hs : s.btn_state = false)
    (hl : ∀ p ∈ lows, p.2 = false ∧ p.1 ≤ s.btn_timestamp + BTN_LONG_PRESS_SECONDS) :
    runBtn (lows ++ [(tr, true)]) s = (⟨true, s.btn_timestamp, s.silent⟩, 0, false) := by
  induction lows generalizing s with
  | nil =>
    rw [List.nil_append, runBtn, btnTick_release]
    simp [runBtn]
  | cons p rest ih =>
    obtain ⟨t, lvl⟩ := p
    obtain ⟨hlvl, htle⟩ := hl (t, lvl) (List.mem_cons_self _ _)
    subst hlvl
    rw [List.cons_append, runBtn, btnTick_low t s hs htle]
    simp only []
    rw [ih s hs (fun q hq => hl q (List.mem_cons_of_mem _ hq))]
    simp

theorem runBtn_lows_shutdown (lows : List (ℚ × Bool)) (t1 : ℚ) (s : BtnState)
    (hs : s.btn_state = false)
    (hl : ∀ p ∈ lows, p.2 = false ∧ p.1 ≤ s.btn_timestamp + BTN_LONG_PRESS_SECONDS)
    (ht : s.btn_timestamp + BTN_LONG_PRESS_SECONDS < t1) :
    runBtn (lows ++ [(t1, false)]) s = (s, 0, true) := by
  induction lows generalizing s with
  | nil =>
    rw [List.nil_append, runBtn, btnTick_low_shutdown t1 s hs ht]
    simp
  | cons p rest ih =>
    obtain ⟨t, lvl⟩ := p
    obtain ⟨hlvl, htle⟩ := hl (t, lvl) (List.mem_cons_self _ _)
    subst hlvl
    rw [List.cons_append, runBtn, btnTick_low t s hs htle]
    simp only []
    rw [ih s hs (fun q hq => hl q (List.mem_cons_of_mem _ hq)) ht]
    simp

/-- C8: a falling edge of the button (previous level high, current low)
records the edge timestamp, toggles mute exactly once and emits the
diagnostic dump, with no shutdown on that tick; a press held low with
every subsequent tick at most 8 seconds after the edge and then released
never triggers shutdown and yields exactly one mute toggle; a press held
low with a tick strictly more than 8 seconds after the recorded edge
timestamp fires the purple-blink cue and the shutdown path, exactly once
(the run halts there), again with exactly one mute toggle. -/
theorem button_press_behavior :
    (∀ (now : ℚ) (s : BtnState), s.btn_state = true →
        btnTick now false s = ⟨⟨false, now, !s.silent⟩, true, false, false⟩) ∧
    (∀ (t0 tr : ℚ) (lows : List (ℚ × Bool)) (s : BtnState), s.btn_state = true →
        (∀ p ∈ lows, p.2 = false ∧ p.1 ≤ t0 + BTN_LONG_PRESS_SECONDS) →
        runBtn ((t0, false) :: (lows ++ [(tr, true)])) s
          = (⟨true, t0, !s.silent⟩, 1, false)) ∧
    (∀ (t0 t1 : ℚ) (lows : List (ℚ × Bool)) (s : BtnState), s.btn_state = true →
        (∀ p ∈ lows, p.2 = false ∧ p.1 ≤ t0 + BTN_LONG_PRESS_SECONDS) →
        t0 + BTN_LONG_PRESS_SECONDS < t1 →
        runBtn ((t0, false) :: (lows ++ [(t1, false)])) s
          = (⟨false, t0, !s.silent⟩, 1, true)) := by
  refine ⟨btnTick_edge, ?_, ?_⟩
  · intro t0 tr lows s hs hl
    rw [runBtn, btnTick_edge t0 s hs]
    simp only []
    rw [runBtn_lows_release lows tr ⟨false, t0, !s.silent⟩ rfl hl]
    simp
  · intro t0 t1 lows s hs hl ht
    rw [runBtn, btnTick_edge t0 s hs]
    simp only []
    rw [runBtn_lows_shutdown lows t1 ⟨false, t0, !s.silent⟩ rfl hl ht]
    simp

/-- Witness for C8 at concrete inputs: edge at `t = 1`, one low tick at
`t = 3`, release at `t = 5` (no shutdown, one toggle); and the same press
held until `t = 10` (shutdown fires, one toggle). -/
theorem button_press_behavior_witness :
    btnTick 1 false ⟨true, 0, false⟩ = ⟨⟨false, 1, true⟩, true, false, false⟩ ∧
    runBtn [(1, false), (3, false), (5, true)] ⟨true, 0, false⟩
      = (⟨true, 1, true⟩, 1, false) ∧
    runBtn [(1, false), (3, false), (10, false)] ⟨true, 0, false⟩
      = (⟨false, 1, true⟩, 1, true) := by
  have h1 := button_press_behavior.1 1 ⟨true, 0, false⟩ rfl
  have h2 := button_press_behavior.2.1 1 5 [(3, false)] ⟨true, 0, false⟩ rfl
    (by intro p hp; rw [List.mem_singleton.mp hp]; exact ⟨rfl, by with_unfolding_all decide⟩)
  have h3 := button_press_behavior.2.2 1 10 [(3, false)] ⟨true, 0, false⟩ rfl
    (by intro p hp; rw [List.mem_singleton.mp hp]; exact ⟨rfl, by with_unfolding_all decide⟩)
    (by with_unfolding_all decide)
  exact ⟨h1, by simpa using h2, by simpa using h3⟩

/-- C10: because `btn_timestamp` is initialised to 0 and only updated on a
falling edge, the long-press shutdown can fire without any falling edge
ever having occurred: with the button held from boot (`btn_state` read low
at boot, line 86) and ticks at 1s, 3s and 9s, the run reaches a tick where
`time.monotonic()` exceeds 8 seconds with the button low, fires the
purple-blink cue and the shutdown path, and the mute-toggle/dump count is
zero — no short-press event was ever recorded. -/
theorem boot_held_long_press_shutdown :
    runBtn [(1, false), (3, false), (9, false)] ⟨false, 0, false⟩
      = (⟨false, 0, false⟩, 0, true) ∧
    (btnTick 9 false ⟨false, 0, false⟩).cue = true ∧
    (btnTick 9 false ⟨false, 0, false⟩).shutdownFired = true ∧
    (btnTick 9 false ⟨false, 0, false⟩).dumped = false := by
  refine ⟨?_, ?_, ?_, ?_⟩ <;> with_unfolding_all decide
